import Mathlib

/-!
Verification of the session/connection core of the realtime image demo.

All definitions below are shallow embeddings of src/hooks/useRealtime.ts.
Handlers are identified by reference identity, modeled as natural numbers.
JavaScript exceptions are modeled with Except or with explicit outcome
flags; a try/catch block becomes a match on the outcome.  JSON event
payloads are modeled by inductive types whose constructors are named after
the wire event-type strings the code compares against.  Decoded PCM
fragments are modeled as opaque natural-number identifiers, since only
their identity and ordering matter to the queue logic.  Environment calls
(getUserMedia, replaceTrack, channel send, the signaling fetch) are
recorded as actions, with Bool parameters standing for the outcome the
environment chooses.
-/

namespace Realtime

/-! ## Event bus (useRealtime.ts lines 34, 43 to 71)

The registry eventHandlers is a JavaScript Map from event-type string to a
Set of handler references.  A Map is modeled as a function from String to
Option (List Handler); Set.add appends only when the element is absent and
Set.delete removes the element entirely, which on duplicate-free lists is
List.filter. -/

abbrev Handler := Nat

abbrev Registry := String → Option (List Handler)

def Registry.empty : Registry := fun _ => none

/-- Translation of the on callback: get-or-create the Set for the type,
then Set.add the handler. -/
def regOn (m : Registry) (t : String) (h : Handler) : Registry :=
  fun u =>
    if u = t then
      match m t with
      | none => some [h]
      | some s => some (if h ∈ s then s else s ++ [h])
    else m u

/-- Translation of the off callback: if the type has a Set, Set.delete the
handler, and delete the map entry when the Set becomes empty. -/
def regOff (m : Registry) (t : String) (h : Handler) : Registry :=
  fun u =>
    if u = t then
      match m t with
      | none => none
      | some s =>
        if s.filter (fun x => x ≠ h) = [] then none
        else some (s.filter (fun x => x ≠ h))
    else m u

/-- The handlers emit will iterate over for a type (empty when the type has
no entry, matching the if-handlers guard in the code). -/
def registeredList (m : Registry) (t : String) : List Handler :=
  (m t).getD []

def registered (m : Registry) (t : String) (h : Handler) : Prop :=
  h ∈ registeredList m t

instance (m : Registry) (t : String) (h : Handler) : Decidable (registered m t h) := by
  unfold registered; infer_instance

/-- Result of one emit call: which handlers ran, in order, and the error
log produced by the catch branches. -/
structure EmitOut where
  invoked : List Handler
  logged : List String
  deriving DecidableEq

/-- Translation of the body of the forEach in emit: handler(data) inside
try/catch; a throw is logged and the iteration continues. -/
def emitStep (run : Handler → Except String Unit) (acc : EmitOut) (h : Handler) : EmitOut :=
  match run h with
  | Except.ok _ => { acc with invoked := acc.invoked ++ [h] }
  | Except.error e => { invoked := acc.invoked ++ [h], logged := acc.logged ++ [e] }

/-- Translation of emit: iterate the registered Set with the guarded
handler invocation.  The parameter run gives each handler body, which may
throw.  The return type has no exception channel because every throwing
call in the source is wrapped in try/catch. -/
def emitRun (m : Registry) (run : Handler → Except String Unit) (t : String) : EmitOut :=
  List.foldl (emitStep run) ⟨[], []⟩ (registeredList m t)

/-! ## Audio playback queue (useRealtime.ts lines 38 to 39, 74 to 137)

State of audioQueueRef and isPlayingRef, together with the bookkeeping
needed to observe the asynchronous drain loop playAudioQueue.  The loop
body runs synchronously from one await up to the next, so the scheduler
interleaving points are exactly the per-fragment render suspensions.  A
suspended invocation of playAudioQueue that has started rendering fragment
f is recorded as an element f of the rendering list; started and completed
log, in order, the fragments whose render was started, respectively
finished. -/

structure QState where
  queue : List Nat
  isPlaying : Bool
  rendering : List Nat
  started : List Nat
  completed : List Nat
  deriving DecidableEq

def QState.init : QState := ⟨[], false, [], [], []⟩

/-- Translation of a call to playAudioQueue, run synchronously up to the
first render suspension: the early-return guard, then isPlaying := true,
one shift from the queue, and the start of that render. -/
def drainEnter (s : QState) : QState :=
  if s.isPlaying then s
  else
    match s.queue with
    | [] => s
    | f :: rest =>
      { s with queue := rest, isPlaying := true,
               rendering := s.rendering ++ [f], started := s.started ++ [f] }

/-- Translation of playAudioDelta applied to a successfully decoded
fragment: push onto the queue, then start playback when the flag is
clear. -/
def playAudioDelta (s : QState) (f : Nat) : QState :=
  let s' := { s with queue := s.queue ++ [f] }
  if s'.isPlaying then s' else drainEnter s'

/-- Scheduler-visible operations on the playback state: a fragment arrival
(playAudioDelta), the completion of the render awaited by the i-th
suspended drain invocation (which runs that invocation until its next
suspension or its exit), and the reset performed by the message handler on
output_audio_buffer.cleared or response.cancelled. -/
inductive QOp where
  | enqueue (f : Nat)
  | resume (i : Nat)
  | reset
  deriving DecidableEq

/-- One scheduler step.  On resume, the while condition is re-checked: a
non-empty queue shifts the next fragment and starts its render, an empty
queue exits the loop and clears the flag, exactly the code of
playAudioQueue after the await.  On reset, the message handler assigns
an empty array to audioQueueRef and false to isPlayingRef; it does not
interact with suspended renders. -/
def qstep (s : QState) : QOp → QState
  | QOp.enqueue f => playAudioDelta s f
  | QOp.resume i =>
    match s.rendering[i]? with
    | none => s
    | some f =>
      let s' := { s with rendering := s.rendering.eraseIdx i,
                         completed := s.completed ++ [f] }
      match s'.queue with
      | [] => { s' with isPlaying := false }
      | g :: rest =>
        { s' with queue := rest, rendering := s'.rendering ++ [g],
                  started := s'.started ++ [g] }
  | QOp.reset => { s with queue := [], isPlaying := false }

def runQOps (s : QState) (ops : List QOp) : QState :=
  List.foldl qstep s ops

/-- Number of drain loops currently alive: each element of rendering is a
suspended playAudioQueue invocation that is mid-fragment and will continue
the drain loop when its awaited render finishes. -/
def activeDrains (s : QState) : Nat :=
  s.rendering.length

/-! ## Inbound channel events and the onmessage dispatcher
(useRealtime.ts lines 386 to 497)

Constructors mirror the event-type strings the dispatcher compares
against: output_audio_buffer.cleared, response.cancelled,
response.created, response.audio.delta, output_audio_buffer.audio_added,
response.done.  All remaining branches of the dispatcher only log, so all
other event types are collapsed into the catch-all constructor.  The
payload of responseCreated is the optional response.id field; the payload
of the two audio constructors is the decoded fragment, with none standing
for a missing or empty (falsy) delta string or a delta that fails to
decode, in which case the catch branch leaves the state unchanged. -/

inductive InEvent where
  | bufferCleared
  | responseCancelled
  | responseCreated (id : Option String)
  | audioDelta (d : Option Nat)
  | bufferAudioAdded (d : Option Nat)
  | responseDone
  | other (t : String)
  deriving DecidableEq

/-- JavaScript truthiness of the optional response id string: undefined,
null and the empty string are falsy. -/
def truthyId : Option String → Bool
  | none => false
  | some r => r != ""

/-- The mutable state the dispatcher touches: the playback queue state and
activeResponseRef. -/
structure FullState where
  q : QState
  active : Option String
  deriving DecidableEq

def FullState.init : FullState := ⟨QState.init, none⟩

/-- Translation of channel.onmessage.  The reset branch for
output_audio_buffer.cleared and response.cancelled clears the queue, the
playing flag and the active response id; the response.created branch
stores the id when it is truthy; the two audio branches enqueue through
playAudioDelta; the response.done branch clears only the active response
id.  All branches also log and forward to the bus, which does not change
this state. -/
def onmessage (s : FullState) (e : InEvent) : FullState :=
  match e with
  | InEvent.bufferCleared => ⟨{ s.q with queue := [], isPlaying := false }, none⟩
  | InEvent.responseCancelled => ⟨{ s.q with queue := [], isPlaying := false }, none⟩
  | InEvent.responseCreated i => if truthyId i then { s with active := i } else s
  | InEvent.audioDelta d =>
    match d with
    | some f => { s with q := playAudioDelta s.q f }
    | none => s
  | InEvent.bufferAudioAdded d =>
    match d with
    | some f => { s with q := playAudioDelta s.q f }
    | none => s
  | InEvent.responseDone => { s with active := none }
  | InEvent.other _ => s

/-- The dispatcher state after a trace of inbound events, starting from a
fresh session. -/
def sessionRun (t : List InEvent) : FullState :=
  List.foldl onmessage FullState.init t

/-- Events whose dispatcher branch clears activeResponseRef. -/
def isClearing : InEvent → Bool
  | InEvent.bufferCleared => true
  | InEvent.responseCancelled => true
  | InEvent.responseDone => true
  | _ => false

/-- Events whose dispatcher branch stores a new response id. -/
def isNewResponse : InEvent → Bool
  | InEvent.responseCreated i => truthyId i
  | _ => false

/-- Events that overwrite the tracked response id regardless of its
previous value. -/
def relevant (e : InEvent) : Bool :=
  isClearing e || isNewResponse e

/-- The action of a single inbound event on activeResponseRef alone. -/
def trackerStep (a : Option String) (e : InEvent) : Option String :=
  match e with
  | InEvent.bufferCleared => none
  | InEvent.responseCancelled => none
  | InEvent.responseDone => none
  | InEvent.responseCreated i => if truthyId i then i else a
  | _ => a

/-- A response is in flight after a trace when some response.created event
carrying a truthy id occurs in it and no completion, cancellation or
buffer-clear event follows that occurrence. -/
def InFlight (t : List InEvent) : Prop :=
  ∃ pre r suf, t = pre ++ InEvent.responseCreated (some r) :: suf ∧
    r ≠ "" ∧ ∀ e ∈ suf, isClearing e = false

/-! ## Transport actions, microphone control and outbound send
(useRealtime.ts lines 139 to 240, 290 to 537)

Calls into the WebRTC environment are recorded as actions so that the
shape of a whole session (one setup, then any number of mic toggles) can
be stated.  The replaceTrack action records the track argument: some
string for a captured microphone track, none for the null track. -/

inductive RtcAction where
  | addTransceiver
  | createDataChannel
  | setLocalDescription
  | signalingExchange
  | setRemoteDescription
  | addTrack
  | removeTrack
  | replaceTrack (track : Option String)
  | getUserMedia
  | stopLocalTracks
  | playAudioElement
  | sendCancel
  deriving DecidableEq

/-- Actions performed by initConnection, in order (useRealtime.ts lines
290 to 527): pre-allocate the audio transceiver, create the ordered data
channel, set the local offer, exchange it through the fetch to the
signaling endpoint, set the remote answer. -/
def initConnectionActions : List RtcAction :=
  [RtcAction.addTransceiver, RtcAction.createDataChannel,
   RtcAction.setLocalDescription, RtcAction.signalingExchange,
   RtcAction.setRemoteDescription]

/-- Environment outcomes a startMic call can observe: whether pc has been
initialized, whether the hidden audio element exists, whether getUserMedia
grants permission, whether the sender scan finds the pre-allocated audio
sender, and whether replaceTrack resolves. -/
structure MicEnv where
  pcSet : Bool
  hasAudioElement : Bool
  perm : Bool
  senderFound : Bool
  replaceOk : Bool
  deriving DecidableEq

/-- Result of a mic call: environment calls made in order, the resulting
isMicActive flag, and whether the returned promise resolves (true) or
rejects (false). -/
structure MicResult where
  actions : List RtcAction
  micActive : Bool
  ok : Bool
  deriving DecidableEq

/-- Translation of startMic.  A null pc logs and returns resolved.  The
audio element play attempt is wrapped in try/catch, so its outcome does
not matter.  A getUserMedia denial throws, reaches the outer catch and is
rethrown.  A missing sender logs and returns resolved.  A replaceTrack
rejection also reaches the outer catch and is rethrown.  Only the success
path sets isMicActive to true. -/
def startMicRun (env : MicEnv) (mic0 : Bool) : MicResult :=
  if env.pcSet = false then
    { actions := [], micActive := mic0, ok := true }
  else
    let a0 := if env.hasAudioElement then [RtcAction.playAudioElement] else []
    if env.perm = false then
      { actions := a0 ++ [RtcAction.getUserMedia], micActive := mic0, ok := false }
    else if env.senderFound then
      if env.replaceOk then
        { actions := a0 ++ [RtcAction.getUserMedia, RtcAction.replaceTrack (some "mic")],
          micActive := true, ok := true }
      else
        { actions := a0 ++ [RtcAction.getUserMedia, RtcAction.replaceTrack (some "mic")],
          micActive := mic0, ok := false }
    else
      { actions := a0 ++ [RtcAction.getUserMedia], micActive := mic0, ok := true }

def startMicActions (env : MicEnv) : List RtcAction :=
  (startMicRun env false).actions

/-- Translation of stopMic up to its outbound effect: stop the local
capture tracks when a stream is held, replace the sender track with null
when pc exists and the sender scan finds an audio sender, then send a
response.cancel event exactly when activeResponseRef holds a truthy
id. -/
def stopMicActions (hasStream pcSet senderFound : Bool) (active : Option String) :
    List RtcAction :=
  (if hasStream then [RtcAction.stopLocalTracks] else []) ++
  (if pcSet then
     (if senderFound then [RtcAction.replaceTrack none] else [])
   else []) ++
  (if truthyId active then [RtcAction.sendCancel] else [])

/-- Translation of stopMic as a whole call: it always returns normally and
always leaves isMicActive false. -/
def stopMicRun (hasStream pcSet senderFound : Bool) (active : Option String) : MicResult :=
  { actions := stopMicActions hasStream pcSet senderFound active,
    micActive := false, ok := true }

/-- One facade-level mic toggle after setup, with the environment
outcomes it observes. -/
inductive MicCall where
  | start (env : MicEnv)
  | stop (hasStream pcSet senderFound : Bool) (active : Option String)
  deriving DecidableEq

def callActions : MicCall → List RtcAction
  | MicCall.start env => startMicActions env
  | MicCall.stop hasStream pcSet senderFound active =>
    stopMicActions hasStream pcSet senderFound active

/-- Environment calls of a whole session: one initConnection on mount,
followed by the calls of every mic toggle. -/
def sessionActions (calls : List MicCall) : List RtcAction :=
  initConnectionActions ++ (calls.map callActions).flatten

/-! ## Outbound send (useRealtime.ts lines 139 to 153) -/

/-- Readiness states of an RTCDataChannel. -/
inductive ChanReady where
  | connecting
  | opened
  | closing
  | closed
  deriving DecidableEq

/-- Observable outcome of one send call: whether the underlying channel
send was invoked, the payloads it transmitted in this call, whether the
not-ready diagnostic or the send-failure diagnostic was logged, and
whether an exception escaped to the caller. -/
structure SendOut where
  attempted : Bool
  sent : List String
  warnedNotReady : Bool
  loggedSendFailure : Bool
  threw : Bool
  deriving DecidableEq

/-- Translation of send: the optional-chained readyState check gates the
serialized transmission; the transmission itself sits in try/catch, so a
channel failure (sendOk = false) is logged; the not-open branch only
warns.  No branch queues the event or throws. -/
def sendRun (ready : Option ChanReady) (sendOk : Bool) (ev : String) : SendOut :=
  if ready = some ChanReady.opened then
    if sendOk then
      { attempted := true, sent := [ev], warnedNotReady := false,
        loggedSendFailure := false, threw := false }
    else
      { attempted := true, sent := [], warnedNotReady := false,
        loggedSendFailure := true, threw := false }
  else
    { attempted := false, sent := [], warnedNotReady := true,
      loggedSendFailure := false, threw := false }

/-! ## Channel-open configuration message (useRealtime.ts lines 349 to 379) -/

inductive Modality where
  | audio
  | text
  deriving DecidableEq

/-- The turn_detection object of the session configuration.  The numeric
threshold and temperature are JSON decimals, modeled as exact
rationals. -/
structure TurnDetection where
  kind : String
  threshold : ℚ
  prefixPaddingMs : Nat
  silenceDurationMs : Nat
  createResponse : Bool
  deriving DecidableEq

structure SessionConfigPayload where
  modalities : List Modality
  instructions : String
  voice : String
  inputAudioFormat : String
  outputAudioFormat : String
  transcriptionModel : String
  turnDetection : TurnDetection
  temperature : ℚ
  deriving DecidableEq

/-- The sessionConfig constant built in channel.onopen. -/
def sessionConfig : SessionConfigPayload :=
  { modalities := [Modality.audio, Modality.text]
    instructions := "You are a helpful AI assistant. Be concise and friendly. When shown an image, describe the key elements first."
    voice := "alloy"
    inputAudioFormat := "pcm16"
    outputAudioFormat := "pcm16"
    transcriptionModel := "whisper-1"
    turnDetection :=
      { kind := "server_vad"
        threshold := 1/2
        prefixPaddingMs := 300
        silenceDurationMs := 500
        createResponse := true }
    temperature := 4/5 }

/-- An outbound channel message with its wire type tag. -/
structure OutMsg where
  type : String
  session : SessionConfigPayload
  deriving DecidableEq

/-- The messages channel.onopen transmits, in order: exactly the one
session.update carrying sessionConfig. -/
def onopenSends : List OutMsg :=
  [{ type := "session.update", session := sessionConfig }]

/-- Concrete playback state used as counterexample input: one fragment
still queued, one mid-render, a tracked response. -/
def doneState : FullState :=
  ⟨⟨[7], true, [5], [5], []⟩, some "r1"⟩

/-- Concrete playback state reached after enqueuing fragments 0, 1, 2 into
a fresh queue: fragment 0 is mid-render, fragments 1 and 2 are queued. -/
def abcState : QState :=
  runQOps QState.init [QOp.enqueue 0, QOp.enqueue 1, QOp.enqueue 2]

/-! ## Theorems -/

theorem emitStep_foldl_invoked (run : Handler → Except String Unit) :
    ∀ (l : List Handler) (acc : EmitOut),
      (List.foldl (emitStep run) acc l).invoked = acc.invoked ++ l := by
  intro l
  induction l with
  | nil => intro acc; simp
  | cons h rest ih =>
    intro acc
    rw [List.foldl_cons, ih]
    cases hr : run h <;> simp [emitStep, hr]

theorem emitStep_foldl_logged (run : Handler → Except String Unit) :
    ∀ (l : List Handler) (acc : EmitOut),
      (List.foldl (emitStep run) acc l).logged =
        acc.logged ++ l.filterMap (fun h =>
          match run h with
          | Except.ok _ => none
          | Except.error e => some e) := by
  intro l
  induction l with
  | nil => intro acc; simp
  | cons h rest ih =>
    intro acc
    rw [List.foldl_cons, ih]
    cases hr : run h <;> simp [emitStep, hr]

theorem qstep_preserves_not_started (s : QState) (op : QOp) (f : Nat)
    (hq : f ∉ s.queue) (hs : f ∉ s.started) (hop : op ≠ QOp.enqueue f) :
    f ∉ (qstep s op).queue ∧ f ∉ (qstep s op).started := by
  cases op with
  | enqueue g =>
    have hg : g ≠ f := fun h => hop (by rw [h])
    by_cases hp : s.isPlaying
    · constructor <;> simp [qstep, playAudioDelta, hp, hq, hs, hg, Ne.symm hg]
    · cases hqu : s.queue with
      | nil =>
        constructor <;>
          simp [qstep, playAudioDelta, drainEnter, hp, hqu, hs, hg, Ne.symm hg]
      | cons c cs =>
        have hcf : f ≠ c := fun h => hq (by rw [hqu, h]; exact List.mem_cons_self c cs)
        have hcs : f ∉ cs := fun h => hq (by rw [hqu]; exact List.mem_cons_of_mem c h)
        constructor <;>
          simp [qstep, playAudioDelta, drainEnter, hp, hqu, hs, hg, Ne.symm hg, hcf, hcs]
  | resume i =>
    cases hr : s.rendering[i]? with
    | none => constructor <;> simp [qstep, hr, hq, hs]
    | some g =>
      cases hqu : s.queue with
      | nil => constructor <;> simp [qstep, hr, hqu, hs]
      | cons c cs =>
        have hcf : f ≠ c := fun h => hq (by rw [hqu, h]; exact List.mem_cons_self c cs)
        have hcs : f ∉ cs := fun h => hq (by rw [hqu]; exact List.mem_cons_of_mem c h)
        constructor <;> simp [qstep, hr, hqu, hs, hcf, hcs]
  | reset => constructor <;> simp [qstep, hs]

theorem runQOps_preserves_not_started (f : Nat) :
    ∀ (ops : List QOp) (s : QState), f ∉ s.queue → f ∉ s.started →
      (∀ op ∈ ops, op ≠ QOp.enqueue f) →
      f ∉ (runQOps s ops).queue ∧ f ∉ (runQOps s ops).started := by
  intro ops
  induction ops with
  | nil => intro s hq hs _; exact ⟨hq, hs⟩
  | cons op rest ih =>
    intro s hq hs hops
    have hop : op ≠ QOp.enqueue f := hops op (List.mem_cons_self op rest)
    have hstep := qstep_preserves_not_started s op f hq hs hop
    exact ih (qstep s op) hstep.1 hstep.2
      (fun o ho => hops o (List.mem_cons_of_mem op ho))

theorem onmessage_active (s : FullState) (e : InEvent) :
    (onmessage s e).active = trackerStep s.active e := by
  cases e with
  | bufferCleared => rfl
  | responseCancelled => rfl
  | responseCreated i => by_cases h : truthyId i <;> simp [onmessage, trackerStep, h]
  | audioDelta d => cases d <;> rfl
  | bufferAudioAdded d => cases d <;> rfl
  | responseDone => rfl
  | other t => rfl

theorem foldl_onmessage_active :
    ∀ (t : List InEvent) (s : FullState),
      (List.foldl onmessage s t).active = List.foldl trackerStep s.active t := by
  intro t
  induction t with
  | nil => intro s; rfl
  | cons e rest ih =>
    intro s
    rw [List.foldl_cons, List.foldl_cons, ih, onmessage_active]

theorem trackerStep_irrelevant (a : Option String) (e : InEvent)
    (h : relevant e = false) : trackerStep a e = a := by
  cases e with
  | bufferCleared => simp [relevant, isClearing] at h
  | responseCancelled => simp [relevant, isClearing] at h
  | responseDone => simp [relevant, isClearing] at h
  | responseCreated i =>
    have ht : truthyId i = false := by
      simpa [relevant, isClearing, isNewResponse] using h
    simp [trackerStep, ht]
  | audioDelta d => rfl
  | bufferAudioAdded d => rfl
  | other t => rfl

theorem trackerFold_irrelevant :
    ∀ (t : List InEvent) (a : Option String),
      (∀ e ∈ t, relevant e = false) → List.foldl trackerStep a t = a := by
  intro t
  induction t with
  | nil => intro a _; rfl
  | cons e rest ih =>
    intro a h
    rw [List.foldl_cons, trackerStep_irrelevant a e (h e (List.mem_cons_self e rest))]
    exact ih a (fun x hx => h x (List.mem_cons_of_mem e hx))

theorem trackerStep_relevant (e : InEvent) (h : relevant e = true)
    (a b : Option String) : trackerStep a e = trackerStep b e := by
  cases e with
  | bufferCleared => rfl
  | responseCancelled => rfl
  | responseDone => rfl
  | responseCreated i =>
    have ht : truthyId i = true := by
      simpa [relevant, isClearing, isNewResponse] using h
    simp [trackerStep, ht]
  | audioDelta d => simp [relevant, isClearing, isNewResponse] at h
  | bufferAudioAdded d => simp [relevant, isClearing, isNewResponse] at h
  | other t => simp [relevant, isClearing, isNewResponse] at h

theorem trackerFold_relevant :
    ∀ (t : List InEvent) (a b : Option String),
      t.any relevant = true → List.foldl trackerStep a t = List.foldl trackerStep b t := by
  intro t
  induction t with
  | nil => intro a b h; simp at h
  | cons e rest ih =>
    intro a b h
    cases hr : rest.any relevant with
    | true => rw [List.foldl_cons, List.foldl_cons]; exact ih _ _ hr
    | false =>
      have h' : relevant e = true ∨ ∃ x ∈ rest, relevant x = true := by
        simpa [List.any_cons] using h
      have he : relevant e = true := by
        rcases h' with he | ⟨x, hx, hrel⟩
        · exact he
        · exact absurd (List.any_eq_true.mpr ⟨x, hx, hrel⟩) (by rw [hr]; simp)
      rw [List.foldl_cons, List.foldl_cons, trackerStep_relevant e he a b]

theorem inFlight_cons (e : InEvent) (t : List InEvent) (h : InFlight t) :
    InFlight (e :: t) := by
  rcases h with ⟨pre, r, suf, heq, hr, hcf⟩
  exact ⟨e :: pre, r, suf, by rw [heq]; rfl, hr, hcf⟩

theorem isNewResponse_inv (e : InEvent) (h : isNewResponse e = true) :
    ∃ r, e = InEvent.responseCreated (some r) ∧ r ≠ "" := by
  cases e with
  | responseCreated i =>
    cases i with
    | none => simp [isNewResponse, truthyId] at h
    | some r =>
      refine ⟨r, rfl, ?_⟩
      simpa [isNewResponse, truthyId] using h
  | bufferCleared => simp [isNewResponse] at h
  | responseCancelled => simp [isNewResponse] at h
  | responseDone => simp [isNewResponse] at h
  | audioDelta d => simp [isNewResponse] at h
  | bufferAudioAdded d => simp [isNewResponse] at h
  | other t => simp [isNewResponse] at h

theorem inFlight_any_new (t : List InEvent) (h : InFlight t) :
    t.any isNewResponse = true := by
  rcases h with ⟨pre, r, suf, heq, hr, -⟩
  refine List.any_eq_true.mpr ⟨InEvent.responseCreated (some r), ?_, ?_⟩
  · rw [heq]
    exact List.mem_append.mpr (Or.inr (List.mem_cons_self _ _))
  · simpa [isNewResponse, truthyId] using hr

theorem clearingFree_any_new_inFlight :
    ∀ (t : List InEvent), (∀ e ∈ t, isClearing e = false) →
      t.any isNewResponse = true → InFlight t := by
  intro t
  induction t with
  | nil => intro _ h; simp at h
  | cons e rest ih =>
    intro hcf h
    cases he : isNewResponse e with
    | true =>
      rcases isNewResponse_inv e he with ⟨r, herr, hr⟩
      exact ⟨[], r, rest, by rw [herr]; rfl, hr,
        fun x hx => hcf x (List.mem_cons_of_mem e hx)⟩
    | false =>
      have h' : isNewResponse e = true ∨ ∃ x ∈ rest, isNewResponse x = true := by
        simpa [List.any_cons] using h
      have hrest : rest.any isNewResponse = true := by
        rcases h' with h1 | ⟨x, hx, hnx⟩
        · rw [he] at h1; exact absurd h1 (by simp)
        · exact List.any_eq_true.mpr ⟨x, hx, hnx⟩
      exact inFlight_cons e rest
        (ih (fun x hx => hcf x (List.mem_cons_of_mem e hx)) hrest)

theorem inFlight_cons_elim (e : InEvent) (t : List InEvent)
    (h : InFlight (e :: t)) :
    (∃ r, e = InEvent.responseCreated (some r) ∧ r ≠ "" ∧
      ∀ x ∈ t, isClearing x = false) ∨ InFlight t := by
  rcases h with ⟨pre, r, suf, heq, hr, hcf⟩
  cases pre with
  | nil =>
    rw [List.nil_append] at heq
    have he : e = InEvent.responseCreated (some r) := (List.cons.injEq _ _ _ _ ▸ heq).1
    have ht : t = suf := (List.cons.injEq _ _ _ _ ▸ heq).2
    exact Or.inl ⟨r, he, hr, by rw [ht]; exact hcf⟩
  | cons p pre' =>
    rw [List.cons_append] at heq
    have ht : t = pre' ++ InEvent.responseCreated (some r) :: suf :=
      (List.cons.injEq _ _ _ _ ▸ heq).2
    exact Or.inr ⟨pre', r, suf, ht, hr, hcf⟩

theorem not_inFlight_cons (e : InEvent) (rest : List InEvent)
    (hnew : isNewResponse e = false) (hnf : ¬ InFlight rest) :
    ¬ InFlight (e :: rest) := by
  intro h
  rcases inFlight_cons_elim e rest h with ⟨r, he, hr, -⟩ | h2
  · rw [he] at hnew
    simp [isNewResponse, truthyId] at hnew
    exact hr hnew
  · exact hnf h2

theorem trackerFold_isSome_iff :
    ∀ (t : List InEvent),
      (List.foldl trackerStep none t).isSome = true ↔ InFlight t := by
  intro t
  induction t with
  | nil =>
    constructor
    · intro h; simp at h
    · rintro ⟨pre, r, suf, heq, -, -⟩
      cases pre <;> simp at heq
  | cons e rest ih =>
    cases hany : rest.any relevant with
    | true =>
      rw [List.foldl_cons, trackerFold_relevant rest (trackerStep none e) none hany, ih]
      constructor
      · exact inFlight_cons e rest
      · intro h
        rcases inFlight_cons_elim e rest h with ⟨r, he, hr, hcf⟩ | h2
        · have hnew : rest.any isNewResponse = true := by
            rcases List.any_eq_true.mp hany with ⟨x, hx, hrel⟩
            have hcx : isClearing x = false := hcf x hx
            exact List.any_eq_true.mpr ⟨x, hx, by simpa [relevant, hcx] using hrel⟩
          exact clearingFree_any_new_inFlight rest hcf hnew
        · exact h2
    | false =>
      have hrf : ∀ x ∈ rest, relevant x = false := by
        intro x hx
        cases hrel : relevant x with
        | false => rfl
        | true => exact absurd (List.any_eq_true.mpr ⟨x, hx, hrel⟩) (by rw [hany]; simp)
      have hnoflight : ¬ InFlight rest := by
        intro hf
        rcases List.any_eq_true.mp (inFlight_any_new rest hf) with ⟨x, hx, hnx⟩
        have hr : relevant x = true := by simp [relevant, hnx]
        exact absurd (hrf x hx) (by rw [hr]; simp)
      have hclear : ∀ x ∈ rest, isClearing x = false := by
        intro x hx
        have h2 : isClearing x = false ∧ isNewResponse x = false := by
          simpa [relevant, Bool.or_eq_false_iff] using hrf x hx
        exact h2.1
      rw [List.foldl_cons, trackerFold_irrelevant rest (trackerStep none e) hrf]
      cases e with
      | bufferCleared =>
        constructor
        · intro h; simp [trackerStep] at h
        · intro h; exact absurd h (not_inFlight_cons _ _ rfl hnoflight)
      | responseCancelled =>
        constructor
        · intro h; simp [trackerStep] at h
        · intro h; exact absurd h (not_inFlight_cons _ _ rfl hnoflight)
      | responseDone =>
        constructor
        · intro h; simp [trackerStep] at h
        · intro h; exact absurd h (not_inFlight_cons _ _ rfl hnoflight)
      | responseCreated i =>
        cases i with
        | none =>
          constructor
          · intro h; simp [trackerStep, truthyId] at h
          · intro h; exact absurd h (not_inFlight_cons _ _ rfl hnoflight)
        | some r =>
          by_cases hre : r = ""
          · subst hre
            constructor
            · intro h; simp [trackerStep, truthyId] at h
            · intro h
              exact absurd h (not_inFlight_cons _ _ (by simp [isNewResponse, truthyId]) hnoflight)
          · have ht : truthyId (some r) = true := by simp [truthyId, hre]
            constructor
            · intro _
              exact ⟨[], r, rest, rfl, hre, hclear⟩
            · intro _
              simp [trackerStep, ht]
      | audioDelta d =>
        constructor
        · intro h; simp [trackerStep] at h
        · intro h; exact absurd h (not_inFlight_cons _ _ rfl hnoflight)
      | bufferAudioAdded d =>
        constructor
        · intro h; simp [trackerStep] at h
        · intro h; exact absurd h (not_inFlight_cons _ _ rfl hnoflight)
      | other s =>
        constructor
        · intro h; simp [trackerStep] at h
        · intro h; exact absurd h (not_inFlight_cons _ _ rfl hnoflight)

theorem sessionRun_active_eq (t : List InEvent) :
    (sessionRun t).active = List.foldl trackerStep none t := by
  unfold sessionRun
  rw [foldl_onmessage_active]
  rfl

theorem sessionRun_active_iff (t : List InEvent) :
    ((sessionRun t).active).isSome = true ↔ InFlight t := by
  rw [sessionRun_active_eq]
  exact trackerFold_isSome_iff t

theorem trackerStep_truthy (a : Option String) (e : InEvent)
    (h : truthyId a = a.isSome) :
    truthyId (trackerStep a e) = (trackerStep a e).isSome := by
  cases e with
  | bufferCleared => rfl
  | responseCancelled => rfl
  | responseDone => rfl
  | responseCreated i =>
    cases ht : truthyId i with
    | true =>
      have hstep : trackerStep a (InEvent.responseCreated i) = i := by
        simp [trackerStep, ht]
      rw [hstep, ht]
      cases i with
      | none => simp [truthyId] at ht
      | some r => rfl
    | false =>
      have hstep : trackerStep a (InEvent.responseCreated i) = a := by
        simp [trackerStep, ht]
      rw [hstep]; exact h
  | audioDelta d => exact h
  | bufferAudioAdded d => exact h
  | other s => exact h

theorem trackerFold_truthy :
    ∀ (t : List InEvent) (a : Option String), truthyId a = a.isSome →
      truthyId (List.foldl trackerStep a t) = (List.foldl trackerStep a t).isSome := by
  intro t
  induction t with
  | nil => intro a h; exact h
  | cons e rest ih =>
    intro a h
    rw [List.foldl_cons]
    exact ih (trackerStep a e) (trackerStep_truthy a e h)

theorem sessionRun_active_truthy (t : List InEvent) :
    truthyId (sessionRun t).active = ((sessionRun t).active).isSome := by
  rw [sessionRun_active_eq]
  exact trackerFold_truthy t none rfl

theorem sendCancel_mem_stopMic (hasStream pcSet senderFound : Bool) (a : Option String) :
    RtcAction.sendCancel ∈ stopMicActions hasStream pcSet senderFound a ↔
      truthyId a = true := by
  cases hasStream <;> cases pcSet <;> cases senderFound <;>
    cases ht : truthyId a <;> simp [stopMicActions, ht]

theorem callActions_track_only (c : MicCall) :
    RtcAction.addTrack ∉ callActions c ∧
    RtcAction.removeTrack ∉ callActions c ∧
    RtcAction.signalingExchange ∉ callActions c := by
  cases c with
  | start env =>
    rcases env with ⟨pc, ae, pm, sf, rk⟩
    cases pc <;> cases ae <;> cases pm <;> cases sf <;> cases rk <;> decide
  | stop hs pc sf a =>
    cases hs <;> cases pc <;> cases sf <;>
      cases ht : truthyId a <;>
        simp [callActions, stopMicActions, ht]

theorem sessionActions_no_track_mutation (calls : List MicCall) (a : RtcAction)
    (haT : a = RtcAction.addTrack ∨ a = RtcAction.removeTrack ∨
      a = RtcAction.signalingExchange) :
    a ∉ (calls.map callActions).flatten := by
  intro hx
  rcases List.mem_flatten.mp hx with ⟨l, hl, hxl⟩
  rcases List.mem_map.mp hl with ⟨c, -, rfl⟩
  rcases haT with rfl | rfl | rfl
  · exact (callActions_track_only c).1 hxl
  · exact (callActions_track_only c).2.1 hxl
  · exact (callActions_track_only c).2.2 hxl

theorem startMicActions_replaceTrack_arg (env : MicEnv) (x : Option String)
    (h : RtcAction.replaceTrack x ∈ startMicActions env) : x = some "mic" := by
  rcases env with ⟨pc, ae, pm, sf, rk⟩
  cases pc <;> cases ae <;> cases pm <;> cases sf <;> cases rk <;>
    simp [startMicActions, startMicRun] at h <;> exact h

theorem stopMicActions_replaceTrack_arg (hasStream pcSet senderFound : Bool)
    (a : Option String) (x : Option String)
    (h : RtcAction.replaceTrack x ∈ stopMicActions hasStream pcSet senderFound a) :
    x = none := by
  cases hasStream <;> cases pcSet <;> cases senderFound <;>
    cases ht : truthyId a <;>
      simp [stopMicActions, ht] at h <;> exact h

/-! ## Claim theorems -/

/-- Claim C1, counterexample.  In a state with a queued fragment, a
fragment mid-render and a tracked response, processing a response.done
event does not reset the Audio Playback Queue: the claim that
response-completed empties the queue and clears the active flag fails at
this input. -/
theorem response_done_leaves_queue :
    ¬ ((onmessage doneState InEvent.responseDone).q.queue = [] ∧
       (onmessage doneState InEvent.responseDone).q.isPlaying = false) := by
  decide

/-- Claim C1, amended.  A buffer-cleared or response-cancelled inbound
event clears the tracked response id to idle and resets the Audio
Playback Queue (queue emptied and active flag cleared), while a
response-completed event clears only the tracked id and leaves the
playback queue state entirely unchanged. -/
theorem reset_events_effects (s : FullState) :
    (onmessage s InEvent.bufferCleared).q.queue = [] ∧
    (onmessage s InEvent.bufferCleared).q.isPlaying = false ∧
    (onmessage s InEvent.bufferCleared).active = none ∧
    (onmessage s InEvent.responseCancelled).q.queue = [] ∧
    (onmessage s InEvent.responseCancelled).q.isPlaying = false ∧
    (onmessage s InEvent.responseCancelled).active = none ∧
    (onmessage s InEvent.responseDone).active = none ∧
    (onmessage s InEvent.responseDone).q = s.q :=
  ⟨rfl, rfl, rfl, rfl, rfl, rfl, rfl, rfl⟩

/-- Claim C2.  A reset empties the queue and clears the active flag, and a
fragment that had not yet started rendering before the reset and is not
re-enqueued afterwards never starts rendering in any later schedule: in
particular no fragment queued before the reset is rendered after it. -/
theorem reset_abandons_queued_fragments (s : QState) (f : Nat) (ops : List QOp) :
    (qstep s QOp.reset).queue = [] ∧
    (qstep s QOp.reset).isPlaying = false ∧
    (f ∉ s.started → (∀ op ∈ ops, op ≠ QOp.enqueue f) →
      f ∉ (runQOps (qstep s QOp.reset) ops).started) := by
  refine ⟨rfl, rfl, ?_⟩
  intro hs hops
  exact (runQOps_preserves_not_started f ops (qstep s QOp.reset)
    (by simp [qstep]) hs hops).2

/-- Witness for claim C2 at the scenario of the specification: fragments
0, 1, 2 enqueued, fragment 0 mid-render, reset delivered, then the
suspended drain resumes; fragment 1 never renders and the hypotheses hold
by computation. -/
theorem reset_abandons_queued_fragments_witness :
    (1 ∉ abcState.started) ∧ (∀ op ∈ [QOp.resume 0], op ≠ QOp.enqueue 1) ∧
    1 ∉ (runQOps (qstep abcState QOp.reset) [QOp.resume 0]).started :=
  ⟨by decide, by decide,
    (reset_abandons_queued_fragments abcState 1 [QOp.resume 0]).2.2
      (by decide) (by decide)⟩

/-- Claim C3, failing run.  With fragment 0 mid-render, the reset branch
clears the active flag without touching the suspended drain invocation,
so the next fragment arrival starts a second drain loop; afterwards two
drain invocations are suspended mid-fragment simultaneously, rendering
fragments 0 and 1 concurrently. -/
theorem reset_mid_fragment_allows_second_drain :
    activeDrains (sessionRun [InEvent.audioDelta (some 0), InEvent.responseCancelled,
        InEvent.audioDelta (some 1)]).q = 2 ∧
    (sessionRun [InEvent.audioDelta (some 0), InEvent.responseCancelled,
        InEvent.audioDelta (some 1)]).q.rendering = [0, 1] ∧
    (sessionRun [InEvent.audioDelta (some 0), InEvent.responseCancelled,
        InEvent.audioDelta (some 1)]).q.isPlaying = true :=
  ⟨rfl, rfl, rfl⟩

/-- Claim C4.  After any trace of inbound events, stopMic sends a
response.cancel event exactly when some response.created event carrying a
truthy id occurred in the trace with no completion, cancellation or
buffer-clear event after it; when the tracker is idle, stopMic sends no
cancel and still returns normally. -/
theorem stopMic_cancel_iff_inflight (t : List InEvent)
    (hasStream pcSet senderFound : Bool) :
    (RtcAction.sendCancel ∈
        stopMicActions hasStream pcSet senderFound (sessionRun t).active ↔ InFlight t) ∧
    ((sessionRun t).active = none →
      RtcAction.sendCancel ∉
        stopMicActions hasStream pcSet senderFound (sessionRun t).active ∧
      (stopMicRun hasStream pcSet senderFound (sessionRun t).active).ok = true) := by
  constructor
  · rw [sendCancel_mem_stopMic, sessionRun_active_truthy]
    exact sessionRun_active_iff t
  · intro h
    refine ⟨?_, rfl⟩
    rw [sendCancel_mem_stopMic, h]
    simp [truthyId]

/-- Witness for claim C4 on the empty trace: the tracker is idle, no
cancel is sent and the call returns normally. -/
theorem stopMic_cancel_iff_inflight_witness :
    RtcAction.sendCancel ∉ stopMicActions true true true (sessionRun []).active ∧
    (stopMicRun true true true (sessionRun []).active).ok = true :=
  (stopMic_cancel_iff_inflight [] true true true).2 rfl

/-- Claim C5.  Over a whole session consisting of the mount-time setup
followed by any number of mic toggles with any environment outcomes, the
signaling exchange happens exactly once, no mic toggle ever adds or
removes a track, startMic only substitutes the captured track into the
existing sender, and stopMic only substitutes the null track. -/
theorem track_substitution_invariant (calls : List MicCall) :
    (sessionActions calls).count RtcAction.signalingExchange = 1 ∧
    RtcAction.addTrack ∉ sessionActions calls ∧
    RtcAction.removeTrack ∉ sessionActions calls ∧
    (∀ env x, RtcAction.replaceTrack x ∈ startMicActions env → x = some "mic") ∧
    (∀ hasStream pcSet senderFound a x,
      RtcAction.replaceTrack x ∈ stopMicActions hasStream pcSet senderFound a →
        x = none) := by
  refine ⟨?_, ?_, ?_, startMicActions_replaceTrack_arg, stopMicActions_replaceTrack_arg⟩
  · unfold sessionActions
    rw [List.count_append]
    have h1 : initConnectionActions.count RtcAction.signalingExchange = 1 := by decide
    have h2 : ((calls.map callActions).flatten).count RtcAction.signalingExchange = 0 :=
      List.count_eq_zero.mpr
        (sessionActions_no_track_mutation calls _ (Or.inr (Or.inr rfl)))
    rw [h1, h2]
  · intro hx
    rcases List.mem_append.mp hx with h | h
    · exact absurd h (by decide)
    · exact sessionActions_no_track_mutation calls _ (Or.inl rfl) h
  · intro hx
    rcases List.mem_append.mp hx with h | h
    · exact absurd h (by decide)
    · exact sessionActions_no_track_mutation calls _ (Or.inr (Or.inl rfl)) h

/-- Witness for claim C5: a session with one successful start and one stop
still signals exactly once, and both replaceTrack hypotheses are
satisfiable at concrete inputs. -/
theorem track_substitution_invariant_witness :
    (sessionActions [MicCall.start ⟨true, true, true, true, true⟩,
        MicCall.stop true true true none]).count RtcAction.signalingExchange = 1 ∧
    (some "mic" = some "mic") ∧ ((none : Option String) = (none : Option String)) :=
  ⟨(track_substitution_invariant
      [MicCall.start ⟨true, true, true, true, true⟩,
       MicCall.stop true true true none]).1,
   (track_substitution_invariant []).2.2.2.1
      ⟨true, true, true, true, true⟩ (some "mic") (by decide),
   (track_substitution_invariant []).2.2.2.2 true true true (some "r1") none (by decide)⟩

/-- Claim C6.  For every channel state, send attempts the underlying
transmission exactly when the readiness state is open; the payload goes
out exactly when the channel is open and the underlying send succeeds; a
not-open channel drops the event with only a diagnostic and no queueing;
and no branch throws to the caller. -/
theorem send_drops_when_not_open (ready : Option ChanReady) (sendOk : Bool)
    (ev : String) :
    ((sendRun ready sendOk ev).attempted = true ↔ ready = some ChanReady.opened) ∧
    ((sendRun ready sendOk ev).sent = [ev] ↔
      (ready = some ChanReady.opened ∧ sendOk = true)) ∧
    (ready ≠ some ChanReady.opened →
      (sendRun ready sendOk ev).sent = [] ∧
      (sendRun ready sendOk ev).warnedNotReady = true) ∧
    (sendRun ready sendOk ev).threw = false := by
  cases sendOk <;> by_cases h : ready = some ChanReady.opened <;>
    simp [sendRun, h]

/-- Witness for claim C6 at a channel that has no data channel yet: the
event is dropped with the not-ready diagnostic. -/
theorem send_drops_when_not_open_witness :
    (sendRun none true "evt").sent = [] ∧
    (sendRun none true "evt").warnedNotReady = true :=
  (send_drops_when_not_open none true "evt").2.2.1 (by simp)

/-- Claim C7.  The handler registry has set semantics: registering the
same handler twice equals registering it once, removal is idempotent and
is a no-op on an empty registry, and emit invokes a handler exactly when
it is registered for the type at that moment. -/
theorem handler_registry_set_semantics :
    (∀ (m : Registry) (t : String) (h : Handler),
      regOn (regOn m t h) t h = regOn m t h) ∧
    (∀ (m : Registry) (t : String) (h : Handler),
      regOff (regOff m t h) t h = regOff m t h) ∧
    (∀ (t : String) (h : Handler), regOff Registry.empty t h = Registry.empty) ∧
    (∀ (m : Registry) (run : Handler → Except String Unit) (t : String) (h : Handler),
      h ∈ (emitRun m run t).invoked ↔ registered m t h) := by
  refine ⟨?_, ?_, ?_, ?_⟩
  · intro m t h
    funext u
    by_cases hu : u = t
    · subst hu
      cases hm : m u with
      | none => simp [regOn, hm]
      | some s =>
        by_cases hh : h ∈ s
        · simp [regOn, hm, hh]
        · simp [regOn, hm, hh]
    · simp [regOn, hu]
  · intro m t h
    funext u
    by_cases hu : u = t
    · subst hu
      simp only [regOff, eq_self_iff_true, if_true]
      cases hm : m u with
      | none => rfl
      | some s =>
        by_cases hnil : s.filter (fun x => x ≠ h) = []
        · simp only [if_pos hnil]
        · have hfil : (s.filter (fun x => x ≠ h)).filter (fun x => x ≠ h)
              = s.filter (fun x => x ≠ h) :=
            List.filter_eq_self.mpr (fun x hx => (List.mem_filter.mp hx).2)
          show (match (if s.filter (fun x => x ≠ h) = [] then none
                       else some (s.filter (fun x => x ≠ h))) with
                | none => none
                | some s2 =>
                  if s2.filter (fun x => x ≠ h) = [] then none
                  else some (s2.filter (fun x => x ≠ h)))
              = (if s.filter (fun x => x ≠ h) = [] then none
                 else some (s.filter (fun x => x ≠ h)))
          rw [if_neg hnil]
          show (if (s.filter (fun x => x ≠ h)).filter (fun x => x ≠ h) = [] then none
                else some ((s.filter (fun x => x ≠ h)).filter (fun x => x ≠ h)))
              = some (s.filter (fun x => x ≠ h))
          rw [hfil, if_neg hnil]
    · simp [regOff, hu]
  · intro t h
    funext u
    by_cases hu : u = t <;> simp [regOff, Registry.empty, hu]
  · intro m run t h
    unfold emitRun registered
    rw [emitStep_foldl_invoked]
    simp

/-- Claim C8.  One emit call invokes every handler registered for the
type, in registry order, even when earlier handlers throw; each throw is
converted into a log entry, and the call itself has no exception
outcome. -/
theorem emit_isolates_handler_exceptions (m : Registry)
    (run : Handler → Except String Unit) (t : String) :
    (emitRun m run t).invoked = registeredList m t ∧
    (emitRun m run t).logged = (registeredList m t).filterMap (fun h =>
      match run h with
      | Except.ok _ => none
      | Except.error e => some e) := by
  constructor
  · unfold emitRun; rw [emitStep_foldl_invoked]; simp
  · unfold emitRun; rw [emitStep_foldl_logged]; simp

/-- Claim C9.  On channel open exactly one message is transmitted: a
session.update whose modality list declares audio before text and which
carries the audio encodings, the voice identity and the server turn
detection parameters. -/
theorem channel_open_sends_config :
    onopenSends = [{ type := "session.update", session := sessionConfig }] ∧
    sessionConfig.modalities = [Modality.audio, Modality.text] ∧
    List.indexOf Modality.audio sessionConfig.modalities <
      List.indexOf Modality.text sessionConfig.modalities ∧
    sessionConfig.voice = "alloy" ∧
    sessionConfig.inputAudioFormat = "pcm16" ∧
    sessionConfig.outputAudioFormat = "pcm16" ∧
    sessionConfig.turnDetection.kind = "server_vad" ∧
    sessionConfig.turnDetection.prefixPaddingMs = 300 ∧
    sessionConfig.turnDetection.silenceDurationMs = 500 ∧
    sessionConfig.turnDetection.createResponse = true := by
  refine ⟨rfl, rfl, ?_, rfl, rfl, rfl, rfl, rfl, rfl, rfl⟩
  decide

/-- Claim C10.  A startMic call before the peer connection exists resolves
successfully, performs no environment call at all (no capture request, no
track substitution) and leaves the mic-active flag unchanged, while a
permission denial on an initialized connection rejects. -/
theorem startmic_without_pc_resolves (hasAE perm senderFound replaceOk mic0 : Bool) :
    startMicRun ⟨false, hasAE, perm, senderFound, replaceOk⟩ mic0 =
      { actions := [], micActive := mic0, ok := true } ∧
    (startMicRun ⟨true, hasAE, false, senderFound, replaceOk⟩ mic0).ok = false :=
  ⟨rfl, rfl⟩

end Realtime
